import Mathlib

/-!
Shallow embedding of the multi-provider completion gateway
(`open_webui/services/fallback_handler.py`, `provider_adapters.py`,
`model_router.py`, `rag_reranker.py`, `routers/observability.py`).

Conventions of the embedding:
* Python floats are modelled as exact numbers: timestamps/latencies as `ℚ`,
  reranker scores over an arbitrary `LinearOrderedField` (instantiated at `ℚ`
  for computation and at `ℝ` with `Real.log` for facts about `math.log`).
* Mutable objects become explicit state threading: each method returns the
  updated object, and the executor's shared state (breaker map, the caller's
  `ProviderRequest`) is an `ExecState` record that is threaded through and
  returned.
* `raise` becomes `Except`; an async generator becomes the list of chunks it
  yielded plus its final result.
* `time.time()` is a value supplied by the environment; within one executor
  run it is modelled as a single run clock `now` (none of the verified
  properties depend on the clock advancing between the statements of one
  attempt).
-/

/-- Pointwise update of a string-keyed map (Python dict assignment). -/
def updateMap {β : Type} (m : String → β) (k : String) (v : β) : String → β :=
  fun x => if x = k then v else m x

/-- Python list slicing `l[:k]` (negative `k` counts from the end). -/
def pySlice {β : Type} (l : List β) (k : ℤ) : List β :=
  if 0 ≤ k then l.take k.toNat else l.take (l.length - (-k).toNat)

/-- A word character in the sense of the regex `\w` (ASCII range, which covers
every input appearing in the development). -/
def isWordChar (c : Char) : Bool := c.isAlphanum || c = '_'

/-- Collect maximal runs of word characters (the regex `\b\w+\b` on an
already lowercased character list). -/
def wordRunsAux (c : Char) (acc : List (List Char)) : List (List Char) :=
  if isWordChar c then
    match acc with
    | [] => [[c]]
    | r :: rs => (c :: r) :: rs
  else [] :: acc

/-- `LexicalReranker._tokenize`: lowercase, then extract maximal runs of
word characters (`re.findall(..)` over `text.lower()`). -/
def tokenize (s : String) : List String :=
  ((s.data.map Char.toLower).foldr wordRunsAux []).filterMap
    (fun r => if r.isEmpty then none else some (String.mk r))

/-- Keys of a Python `Counter`/`dict` built from a list: the distinct
elements in first-occurrence order. -/
def firstOccurrencesAux (seen : List String) : List String → List String
  | [] => []
  | t :: ts =>
      if t ∈ seen then firstOccurrencesAux seen ts
      else t :: firstOccurrencesAux (seen ++ [t]) ts

/-- Distinct elements in first-occurrence order. -/
def firstOccurrences (l : List String) : List String := firstOccurrencesAux [] l

/-! ## Circuit breaker (`fallback_handler.py`, `CircuitBreakerState`)

The Python class keeps its configuration (`failure_threshold`,
`timeout_seconds`, `half_open_attempts`) and its mutable fields on the same
object; the state name is the Python string `"closed"`/`"open"`/`"half_open"`. -/

structure CircuitBreakerState where
  failure_threshold : ℕ
  timeout_seconds : ℚ
  half_open_attempts : ℕ
  failure_count : ℕ
  last_failure_time : Option ℚ
  state : String
  opened_at : Option ℚ
  deriving DecidableEq

/-- `CircuitBreakerState.__init__` (defaults 5 / 60 / 1). -/
def initBreaker (failure_threshold : ℕ := 5) (timeout_seconds : ℚ := 60)
    (half_open_attempts : ℕ := 1) : CircuitBreakerState :=
  { failure_threshold := failure_threshold
    timeout_seconds := timeout_seconds
    half_open_attempts := half_open_attempts
    failure_count := 0
    last_failure_time := none
    state := "closed"
    opened_at := none }

/-- `CircuitBreakerState.record_success`. -/
def CircuitBreakerState.record_success (cb : CircuitBreakerState) : CircuitBreakerState :=
  let cb := { cb with failure_count := 0, last_failure_time := none }
  if cb.state = "half_open" then
    { cb with state := "closed", opened_at := none }
  else cb

/-- `CircuitBreakerState.record_failure` (`now` is the value of `time.time()`). -/
def CircuitBreakerState.record_failure (now : ℚ) (cb : CircuitBreakerState) :
    CircuitBreakerState :=
  let cb := { cb with failure_count := cb.failure_count + 1, last_failure_time := some now }
  if cb.state = "closed" ∧ cb.failure_threshold ≤ cb.failure_count then
    { cb with state := "open", opened_at := some now }
  else cb

/-- `CircuitBreakerState.can_attempt`: returns the admission decision and the
(possibly mutated) breaker — the open-state branch transitions to half-open
once the cooldown has passed.  A `None` `opened_at` is read as `0` (the Python
code would raise there; reachable states always have it set while open). -/
def CircuitBreakerState.can_attempt (now : ℚ) (cb : CircuitBreakerState) :
    Bool × CircuitBreakerState :=
  if cb.state = "closed" then (true, cb)
  else if cb.state = "open" then
    if cb.timeout_seconds ≤ now - (cb.opened_at.getD 0) then
      (true, { cb with state := "half_open" })
    else (false, cb)
  else if cb.state = "half_open" then (true, cb)
  else (false, cb)

/-- An operation applied to one provider's breaker.  `success` covers both a
successful attempt and the admin reset endpoint
(`POST /circuit-breakers/{provider}/reset` calls `record_success`). -/
inductive BreakerOp where
  | success : BreakerOp
  | failure : ℚ → BreakerOp
  | attempt : ℚ → BreakerOp
  deriving DecidableEq

/-- Apply one operation to a breaker. -/
def stepOp (cb : CircuitBreakerState) : BreakerOp → CircuitBreakerState
  | .success => cb.record_success
  | .failure now => cb.record_failure now
  | .attempt now => (cb.can_attempt now).2

/-- Apply a sequence of operations. -/
def runOps (cb : CircuitBreakerState) (ops : List BreakerOp) : CircuitBreakerState :=
  ops.foldl stepOp cb

/-- `true` iff the sequence never records a success while the breaker is in
state `"open"` (i.e. the admin reset is never invoked on an open breaker). -/
def noSuccessWhileOpen : CircuitBreakerState → List BreakerOp → Bool
  | _, [] => true
  | cb, op :: rest =>
      (!(op == BreakerOp.success && cb.state == "open")) &&
        noSuccessWhileOpen (stepOp cb op) rest

/-! ## Provider adapters (`provider_adapters.py`)

Opaque payloads (message bodies, tool definitions, usage dictionaries) are
modelled with simple stand-in types; no verified property inspects their
structure. -/

/-- `ProviderRequest` (pydantic model), the normalized request. -/
structure ProviderRequest where
  model : String
  messages : List (String × String)
  temperature : Option ℚ
  max_tokens : Option ℤ
  top_p : Option ℚ
  frequency_penalty : Option ℚ
  presence_penalty : Option ℚ
  tools : Option (List String)
  tool_choice : Option String
  response_format : Option String
  stream : Bool
  metadata : Option (List (String × String))
  deriving DecidableEq

/-- `ProviderResponse` (pydantic model), the normalized response. -/
structure ProviderResponse where
  content : Option String
  tool_calls : Option (List String)
  finish_reason : Option String
  usage : Option (List (String × ℤ))
  deriving DecidableEq

/-- `ProviderError`: the exception's attributes. -/
structure ProviderErrorE where
  message : String
  status_code : Option ℤ
  error_type : String
  deriving DecidableEq

/-- `ProviderError.__init__`: `error_type or "unknown"` (Python truthiness:
`None` and the empty string both fall back to `"unknown"`). -/
def mkProviderError (message : String) (status_code : Option ℤ)
    (error_type : Option String) : ProviderErrorE :=
  { message := message
    status_code := status_code
    error_type :=
      match error_type with
      | some t => if t = "" then "unknown" else t
      | none => "unknown" }

/-- `ProviderAdapter._categorize_error`: status code → taxonomy tag. -/
def categorizeError (status_code : ℤ) : String :=
  if status_code = 400 then "invalid_request"
  else if status_code = 401 then "authentication"
  else if status_code = 403 then "permission"
  else if status_code = 404 then "not_found"
  else if status_code = 408 then "timeout"
  else if status_code = 429 then "rate_limit"
  else if 500 ≤ status_code ∧ status_code < 600 then "server_error"
  else "unknown"

/-! ## Model registry (`model_registry.py`) -/

/-- `ModelSpec` (pydantic model). -/
structure ModelSpec where
  id : String
  provider : String
  supports_tools : Bool
  supports_vision : Bool
  supports_json_schema : Bool
  max_context_tokens : ℤ
  max_output_tokens : ℤ
  reliability_tier : ℤ
  cost_tier : ℤ
  speed_tier : ℤ
  tags : List String
  deriving DecidableEq

/-! ## Fallback executor (`fallback_handler.py`, `FallbackHandler`) -/

/-- `FallbackAttempt` (pydantic model in `models/observability.py`). -/
structure FallbackAttempt where
  attempt_n : ℕ
  model_id : String
  provider : String
  status_code : Option ℤ
  error_type : Option String
  error_short : Option String
  latency_ms : ℚ
  deriving DecidableEq

/-- Behaviour of one unary adapter call (`adapter.complete` wrapped in
`asyncio.wait_for`): the value it returns or the exception it raises.
`exception` also covers a failing `_get_adapter` (caught by the same
`except Exception` block). -/
inductive AdapterOutcome where
  | success : ProviderResponse → AdapterOutcome
  | timeout : AdapterOutcome
  | providerError : ProviderErrorE → AdapterOutcome
  | exception : String → AdapterOutcome
  deriving DecidableEq

/-- Behaviour of one streaming adapter call after its yielded chunks. -/
inductive StreamOutcome where
  | ok : StreamOutcome
  | providerError : ProviderErrorE → StreamOutcome
  | exception : String → StreamOutcome
  deriving DecidableEq

/-- The executor's environment: the registry lookup, each model's adapter
behaviour, the measured per-attempt latency, and the run clock. -/
structure ExecEnv where
  registry : String → Option ModelSpec
  outcome : String → AdapterOutcome
  streamChunks : String → List String
  streamOutcome : String → StreamOutcome
  latency : String → ℚ
  now : ℚ

/-- The executor's mutable shared state: the per-provider breaker map, the
caller's request object (mutated in place by the Python code), the local
`fallback_attempts` list, and a ghost trace `invoked` recording each
execution of `request.model = model_id` (immediately followed by the adapter
invocation). -/
structure ExecState where
  breakers : String → CircuitBreakerState
  req : ProviderRequest
  attempts : List FallbackAttempt
  invoked : List String

/-- `CircuitBreaker.record_success(provider)` on the manager's breaker map. -/
def recordSuccessFor (b : String → CircuitBreakerState) (p : String) :
    String → CircuitBreakerState :=
  updateMap b p (b p).record_success

/-- `CircuitBreaker.record_failure(provider)` on the manager's breaker map. -/
def recordFailureFor (b : String → CircuitBreakerState) (p : String) (now : ℚ) :
    String → CircuitBreakerState :=
  updateMap b p ((b p).record_failure now)

/-- Decide whether a `ProviderError` counts against the breaker:
`if e.status_code and e.status_code >= 500: ... elif e.error_type == "timeout"`
(`status_code` of `None` or `0` is falsy). -/
def providerErrorCounts (e : ProviderErrorE) : Bool :=
  (match e.status_code with
   | some s => ¬s = 0 ∧ 500 ≤ s
   | none => false) ||
  e.error_type = "timeout"

/-- One iteration of the `execute_with_fallback` loop body for candidate
`model_id` at 1-based position `attempt_n`.  Returns the new state and the
response if this candidate succeeded. -/
def fallbackStep (env : ExecEnv) (timeout_ms : ℤ) (st : ExecState)
    (attempt_n : ℕ) (model_id : String) : ExecState × Option ProviderResponse :=
  match env.registry model_id with
  | none => (st, none)
  | some model =>
    let (ok, cb2) := (st.breakers model.provider).can_attempt env.now
    let st := { st with breakers := updateMap st.breakers model.provider cb2 }
    if !ok then
      ({ st with attempts := st.attempts ++
          [{ attempt_n := attempt_n, model_id := model_id, provider := model.provider
             status_code := some 503, error_type := some "circuit_breaker_open"
             error_short := some "Circuit breaker is open", latency_ms := 0 }] }, none)
    else
      let st := { st with req := { st.req with model := model_id },
                          invoked := st.invoked ++ [model_id] }
      match env.outcome model_id with
      | .success resp =>
        let st := { st with breakers := recordSuccessFor st.breakers model.provider }
        let st :=
          if 1 < attempt_n then
            { st with attempts := st.attempts ++
                [{ attempt_n := attempt_n, model_id := model_id, provider := model.provider
                   status_code := some 200, error_type := none
                   error_short := none, latency_ms := env.latency model_id }] }
          else st
        (st, some resp)
      | .timeout =>
        let st := { st with breakers := recordFailureFor st.breakers model.provider env.now }
        ({ st with attempts := st.attempts ++
            [{ attempt_n := attempt_n, model_id := model_id, provider := model.provider
               status_code := some 408, error_type := some "timeout"
               error_short := some ("Request timeout after " ++ toString timeout_ms ++ "ms")
               latency_ms := env.latency model_id }] }, none)
      | .providerError e =>
        let st :=
          if providerErrorCounts e then
            { st with breakers := recordFailureFor st.breakers model.provider env.now }
          else st
        ({ st with attempts := st.attempts ++
            [{ attempt_n := attempt_n, model_id := model_id, provider := model.provider
               status_code := e.status_code, error_type := some e.error_type
               error_short := some (e.message.take 200)
               latency_ms := env.latency model_id }] }, none)
      | .exception msg =>
        let st := { st with breakers := recordFailureFor st.breakers model.provider env.now }
        ({ st with attempts := st.attempts ++
            [{ attempt_n := attempt_n, model_id := model_id, provider := model.provider
               status_code := some 500, error_type := some "unknown"
               error_short := some (msg.take 200)
               latency_ms := env.latency model_id }] }, none)

/-- The synthetic terminal error of `execute_with_fallback`. -/
def allFallbacksFailedError : ProviderErrorE :=
  mkProviderError "All models in fallback chain failed" (some 500) (some "all_fallbacks_failed")

/-- The `for attempt_n, model_id in enumerate(chain, start=1)` loop. -/
def execGo (env : ExecEnv) (timeout_ms : ℤ) :
    ExecState → ℕ → List String →
    Except ProviderErrorE (ProviderResponse × List FallbackAttempt) × ExecState
  | st, _, [] => (.error allFallbacksFailedError, st)
  | st, n, model_id :: rest =>
    match fallbackStep env timeout_ms st n model_id with
    | (st2, some resp) => (.ok (resp, st2.attempts), st2)
    | (st2, none) => execGo env timeout_ms st2 (n + 1) rest

/-- `FallbackHandler.execute_with_fallback`: run the chain
`[primary] + fallbacks`; the returned `ExecState` is the final value of the
shared mutable state (breaker map, caller's request). -/
def executeWithFallback (env : ExecEnv) (req : ProviderRequest)
    (primary_model_id : String) (fallback_model_ids : List String)
    (timeout_ms : ℤ) (breakers : String → CircuitBreakerState) :
    Except ProviderErrorE (ProviderResponse × List FallbackAttempt) × ExecState :=
  execGo env timeout_ms
    { breakers := breakers, req := req, attempts := [], invoked := [] }
    1 (primary_model_id :: fallback_model_ids)

/-- State threaded through `stream_with_fallback`: breaker map, the caller's
request, the chunks yielded to the caller so far, and the ghost trace of
`request.model` assignments. -/
structure StreamState where
  breakers : String → CircuitBreakerState
  req : ProviderRequest
  emitted : List String
  invoked : List String

/-- The synthetic terminal error of `stream_with_fallback`. -/
def allFallbacksFailedStreamingError : ProviderErrorE :=
  mkProviderError "All models in fallback chain failed for streaming" (some 500)
    (some "all_fallbacks_failed")

/-- Streaming failure accounting:
`if e.status_code and e.status_code >= 500: record_failure` (no timeout arm). -/
def streamErrorCounts (e : ProviderErrorE) : Bool :=
  match e.status_code with
  | some s => ¬s = 0 ∧ 500 ≤ s
  | none => false

/-- One iteration of the `stream_with_fallback` loop body for candidate
`model_id`.  A candidate's adapter yields `env.streamChunks model_id` to the
caller and then finishes with `env.streamOutcome model_id`; the returned
flag says whether this candidate completed its stream (the generator
returns).  On an error the caller's loop continues with the next candidate
(the chunks already yielded stay with the caller). -/
def streamStep (env : ExecEnv) (st : StreamState) (model_id : String) :
    StreamState × Bool :=
  match env.registry model_id with
  | none => (st, false)
  | some model =>
    let (ok, cb2) := (st.breakers model.provider).can_attempt env.now
    let st := { st with breakers := updateMap st.breakers model.provider cb2 }
    if !ok then (st, false)
    else
      let st := { st with req := { st.req with model := model_id },
                          invoked := st.invoked ++ [model_id],
                          emitted := st.emitted ++ env.streamChunks model_id }
      match env.streamOutcome model_id with
      | .ok =>
        ({ st with breakers := recordSuccessFor st.breakers model.provider }, true)
      | .providerError e =>
        let st :=
          if streamErrorCounts e then
            { st with breakers := recordFailureFor st.breakers model.provider env.now }
          else st
        (st, false)
      | .exception _ =>
        ({ st with breakers := recordFailureFor st.breakers model.provider env.now }, false)

/-- The `stream_with_fallback` candidate loop. -/
def streamGo (env : ExecEnv) :
    StreamState → ℕ → List String → Except ProviderErrorE Unit × StreamState
  | st, _, [] => (.error allFallbacksFailedStreamingError, st)
  | st, n, model_id :: rest =>
    match streamStep env st model_id with
    | (st2, true) => (.ok (), st2)
    | (st2, false) => streamGo env st2 (n + 1) rest

/-- `FallbackHandler.stream_with_fallback` (its `timeout_ms` parameter is
accepted and unused, as in the source). -/
def streamWithFallback (env : ExecEnv) (req : ProviderRequest)
    (primary_model_id : String) (fallback_model_ids : List String)
    (_timeout_ms : ℤ) (breakers : String → CircuitBreakerState) :
    Except ProviderErrorE Unit × StreamState :=
  streamGo env
    { breakers := breakers, req := req, emitted := [], invoked := [] }
    1 (primary_model_id :: fallback_model_ids)

/-! ## Model router (`model_router.py`)

Regex evaluation (`re.search` with `IGNORECASE`, including the
invalid-pattern fallback to `False`) is abstracted as a boolean oracle
`regexMatch pattern text`; no verified property depends on its value. -/

/-- `RoutingContext` (pydantic model). -/
structure RoutingContext where
  last_user_message : String
  messages : List (String × String)
  has_code_block : Bool
  has_attachments : Bool
  rag_enabled : Bool
  estimated_context_tokens : ℤ
  tools_enabled : Bool
  response_format_required : Option String
  deriving DecidableEq

/-- `RoutingDecision` (pydantic model). -/
structure RoutingDecision where
  primary_model_id : String
  fallback_model_ids : List String
  route_name : String
  route_reason : String
  timeout_ms : ℤ
  deriving DecidableEq

/-- A primitive predicate clause (one of the free-form condition dicts in a
route's `when.any` / `when.all`); `none` marks an absent key.  The field
order is the priority order of `_evaluate_condition`. -/
structure PrimCond where
  has_code_block : Option Bool := none
  has_attachments : Option Bool := none
  rag_enabled : Option Bool := none
  tools_enabled : Option Bool := none
  response_format_required : Option (Option String) := none
  context_est_tokens_gt : Option ℤ := none
  contains_regex : Option String := none
  deriving DecidableEq

/-- `RouteCondition` (pydantic model). -/
structure RouteCondition where
  always : Option Bool := none
  any : Option (List PrimCond) := none
  all : Option (List PrimCond) := none
  deriving DecidableEq

/-- `RouteSpec` (pydantic model). -/
structure RouteSpec where
  name : String
  when : RouteCondition
  use_model : String
  fallback_models : List String
  timeout_ms : ℤ
  deriving DecidableEq

/-- The parts of `ModelRegistryConfig` the router reads. -/
structure RegistryConfig where
  models : List ModelSpec
  routes : List RouteSpec

/-- `ModelRegistry.get_model`: lookup in `models_by_id`, a dict built by
comprehension over `config.models` — on duplicate ids the last entry wins. -/
def getModelR (cfg : RegistryConfig) (model_id : String) : Option ModelSpec :=
  cfg.models.reverse.find? (fun m => m.id == model_id)

/-- `ModelRouter._evaluate_condition` (first present key wins). -/
def evaluateCondition (regexMatch : String → String → Bool) (c : PrimCond)
    (ctx : RoutingContext) : Bool :=
  match c.has_code_block with
  | some v => ctx.has_code_block == v
  | none =>
  match c.has_attachments with
  | some v => ctx.has_attachments == v
  | none =>
  match c.rag_enabled with
  | some v => ctx.rag_enabled == v
  | none =>
  match c.tools_enabled with
  | some v => ctx.tools_enabled == v
  | none =>
  match c.response_format_required with
  | some v => ctx.response_format_required == v
  | none =>
  match c.context_est_tokens_gt with
  | some n => decide (n < ctx.estimated_context_tokens)
  | none =>
  match c.contains_regex with
  | some pat => regexMatch pat ctx.last_user_message
  | none => false

/-- `ModelRouter._matches_route` (`if condition.always:` and
`if condition.any:` follow Python truthiness: `False`, `None` and the empty
list all fall through). -/
def matchesRoute (regexMatch : String → String → Bool) (cond : RouteCondition)
    (ctx : RoutingContext) : Bool :=
  match cond.always with
  | some true => true
  | _ =>
  match cond.any with
  | some (c :: cs) => (c :: cs).any (fun c => evaluateCondition regexMatch c ctx)
  | _ =>
  match cond.all with
  | some (c :: cs) => (c :: cs).all (fun c => evaluateCondition regexMatch c ctx)
  | _ => false

/-- `ModelRouter._validate_capabilities`. -/
def validateCapabilities (m : ModelSpec) (ctx : RoutingContext) : Bool :=
  if ctx.tools_enabled && !m.supports_tools then false
  else if (ctx.response_format_required == some "json_schema") && !m.supports_json_schema then
    false
  else if m.max_context_tokens < ctx.estimated_context_tokens then false
  else true

/-- Lexicographic comparison of the three-component integer sort keys that
`list.sort(key=lambda m: (..., ..., ...))` uses. -/
def lex3Le (a b : ℤ × ℤ × ℤ) : Bool :=
  decide (a.1 < b.1) ||
    (a.1 == b.1 &&
      (decide (a.2.1 < b.2.1) || (a.2.1 == b.2.1 && decide (a.2.2 ≤ b.2.2))))

/-- Sort key of `_get_fallback_models`: `(-reliability, -speed, cost)`. -/
def overrideSortKey (m : ModelSpec) : ℤ × ℤ × ℤ :=
  (-m.reliability_tier, -m.speed_tier, m.cost_tier)

/-- Sort key of `_get_default_route`: `(-speed, cost, -reliability)`. -/
def defaultSortKey (m : ModelSpec) : ℤ × ℤ × ℤ :=
  (-m.speed_tier, m.cost_tier, -m.reliability_tier)

/-- Python's `list.sort(key=...)` is a stable ascending sort; a stable sort
is uniquely determined by its comparison, so insertion sort with the
non-strict key order coincides with it. -/
def pySortByKey (key : ModelSpec → ℤ × ℤ × ℤ) (l : List ModelSpec) : List ModelSpec :=
  List.insertionSort (fun a b => lex3Le (key a) (key b) = true) l

/-- `ModelRouter._resolve_fallback_chain`. -/
def resolveFallbackChain (cfg : RegistryConfig) (ids : List String)
    (ctx : RoutingContext) : List String :=
  ids.filter (fun mid => ((getModelR cfg mid).map (fun m => validateCapabilities m ctx)).getD false)

/-- `ModelRouter._get_fallback_models`. -/
def getFallbackModels (cfg : RegistryConfig) (primary : ModelSpec)
    (ctx : RoutingContext) : List String :=
  let candidates := cfg.models.filter
    (fun m => m.id != primary.id && validateCapabilities m ctx)
  ((pySortByKey overrideSortKey candidates).take 3).map (fun m => m.id)

/-- `ModelRouter._build_route_reason`. -/
def buildRouteReason (route : RouteSpec) (ctx : RoutingContext) : String :=
  let reasons : List String :=
    (if ctx.has_code_block then ["code blocks detected"] else []) ++
    (if ctx.rag_enabled then ["RAG enabled"] else []) ++
    (if ctx.tools_enabled then ["tools required"] else []) ++
    (match ctx.response_format_required with
     | some s => if s = "" then [] else [s ++ " format required"]
     | none => []) ++
    (if 12000 < ctx.estimated_context_tokens then
       ["long context (" ++ toString ctx.estimated_context_tokens ++ " tokens)"]
     else [])
  match reasons with
  | [] => "Route \x27" ++ route.name ++ "\x27 matched"
  | _ => "Route \x27" ++ route.name ++ "\x27: " ++ String.intercalate ", " reasons

/-- `ModelRouter._get_default_route`.  `none` models the `IndexError` that
`config.models[0]` raises on an empty registry. -/
def getDefaultRoute (cfg : RegistryConfig) (ctx : RoutingContext) :
    Option RoutingDecision :=
  match cfg.models.filter (fun m => validateCapabilities m ctx) with
  | [] =>
    match cfg.models with
    | [] => none
    | first_model :: _ =>
      some { primary_model_id := first_model.id
             fallback_model_ids := []
             route_name := "fallback_no_match"
             route_reason := "No models meet all requirements"
             timeout_ms := 30000 }
  | c :: cs =>
    match pySortByKey defaultSortKey (c :: cs) with
    | [] => none
    | primary :: rest =>
      some { primary_model_id := primary.id
             fallback_model_ids := (rest.take 3).map (fun m => m.id)
             route_name := "default"
             route_reason := "Default routing: fast and cost-effective"
             timeout_ms := 30000 }

/-- The route-rule loop of `ModelRouter.route`: the first route whose
predicate matches and whose primary model exists and passes validation. -/
def findMatchingRoute (regexMatch : String → String → Bool) (cfg : RegistryConfig)
    (ctx : RoutingContext) : Option RouteSpec :=
  cfg.routes.find? (fun r =>
    matchesRoute regexMatch r.when ctx &&
      ((getModelR cfg r.use_model).map (fun m => validateCapabilities m ctx)).getD false)

/-- The rule-evaluation-then-default tail of `ModelRouter.route` (reached
when there is no override or the override is rejected). -/
def routeViaRules (regexMatch : String → String → Bool) (cfg : RegistryConfig)
    (ctx : RoutingContext) : Option RoutingDecision :=
  match findMatchingRoute regexMatch cfg ctx with
  | some r =>
    some { primary_model_id := r.use_model
           fallback_model_ids := resolveFallbackChain cfg r.fallback_models ctx
           route_name := r.name
           route_reason := buildRouteReason r ctx
           timeout_ms := r.timeout_ms }
  | none => getDefaultRoute cfg ctx

/-- `ModelRouter.route` (`if user_model_override:` treats the empty string
as absent). -/
def route (regexMatch : String → String → Bool) (cfg : RegistryConfig)
    (ctx : RoutingContext) (user_model_override : Option String) :
    Option RoutingDecision :=
  match user_model_override with
  | some ov =>
    if ov = "" then routeViaRules regexMatch cfg ctx
    else
      match getModelR cfg ov with
      | some model =>
        if validateCapabilities model ctx then
          some { primary_model_id := ov
                 fallback_model_ids := getFallbackModels cfg model ctx
                 route_name := "user_override"
                 route_reason := "User selected " ++ ov
                 timeout_ms := 60000 }
        else routeViaRules regexMatch cfg ctx
      | none => routeViaRules regexMatch cfg ctx
  | none => routeViaRules regexMatch cfg ctx

/-! ## Lexical reranker (`rag_reranker.py`)

Scores live in an arbitrary linear ordered field `α`; `log` is the embedding
of `math.log` (instantiated with `Real.log` over `ℝ` where its analytic
properties matter, and with concrete functions over `ℚ` for computation). -/

/-- `RAGChunk` (pydantic model). -/
structure RAGChunk (α : Type) where
  doc_id : String
  doc_title : Option String
  doc_path : Option String
  chunk_id : String
  content : String
  vector_score : α
  metadata : Option (List (String × String))
  deriving DecidableEq

/-- `RankedChunk` (pydantic model). -/
structure RankedChunk (α : Type) where
  chunk : RAGChunk α
  vector_score : α
  rerank_score : α
  final_score : α
  preview : String
  deriving DecidableEq

/-- `RerankerResult` (pydantic model). -/
structure RerankerResult (α : Type) where
  ranked_chunks : List (RankedChunk α)
  reranker_type : String
  rerank_latency_ms : α
  deriving DecidableEq

/-- `LexicalReranker.__init__` parameters. -/
structure RerankParams (α : Type) where
  k1 : α
  b : α
  vector_weight : α
  lexical_weight : α
  deriving DecidableEq

/-- The constructor defaults `k1=1.5, b=0.75, vector_weight=0.3,
lexical_weight=0.7`. -/
def defaultRerankParams (α : Type) [LinearOrderedField α] : RerankParams α :=
  { k1 := 3 / 2, b := 3 / 4, vector_weight := 3 / 10, lexical_weight := 7 / 10 }

/-- Number of candidate documents containing `term`
(`sum(1 for chunk in chunks if term in self._tokenize(chunk.content))`). -/
def docFreq (α : Type) (chunks : List (RAGChunk α)) (term : String) : ℕ :=
  (chunks.filter (fun c => term ∈ tokenize c.content)).length

/-- One entry of `_calculate_idf`:
`log((N - df + 0.5) / (df + 0.5))` when `df > 0`, else `0`. -/
def idfOf {α : Type} [LinearOrderedField α] (log : α → α)
    (chunks : List (RAGChunk α)) (term : String) : α :=
  let N : ℕ := chunks.length
  let df : ℕ := docFreq α chunks term
  if 0 < df then log (((N : α) - (df : α) + 1 / 2) / ((df : α) + 1 / 2)) else 0

/-- The length-normalization factor
`1 - b + b * (doc_length / avg_doc_length) if avg_doc_length > 0 else 1`. -/
def bm25Norm {α : Type} [LinearOrderedField α] (p : RerankParams α)
    (doc_length : ℕ) (avg_doc_length : α) : α :=
  if 0 < avg_doc_length then 1 - p.b + p.b * ((doc_length : α) / avg_doc_length)
  else 1

/-- One iteration of the `_bm25_score` term loop: `0` for a term absent from
the document (`continue`), else the BM25 term formula. -/
def bm25TermScore {α : Type} [LinearOrderedField α] (p : RerankParams α)
    (docTokens : List String) (doc_length : ℕ) (avg_doc_length : α)
    (idf : String → α) (t : String) : α :=
  let tf : ℕ := docTokens.count t
  if tf = 0 then 0
  else idf t * ((tf : α) * (p.k1 + 1)) /
    ((tf : α) + p.k1 * bm25Norm p doc_length avg_doc_length)

/-- `LexicalReranker._bm25_score`.  `queryTerms` is the key list of the
query's `Counter` (its multiplicities are never read by the source), `idf`
the `_calculate_idf` table. -/
def bm25Score {α : Type} [LinearOrderedField α] (p : RerankParams α)
    (queryTerms : List String) (document : String) (doc_length : ℕ)
    (avg_doc_length : α) (idf : String → α) : α :=
  let docTokens := tokenize document
  let score :=
    (queryTerms.map (bm25TermScore p docTokens doc_length avg_doc_length idf)).sum
  let max_score := (queryTerms.map idf).sum * (p.k1 + 1)
  if 0 < max_score then min (score / max_score) 1 else score

/-- The preview built by `rerank`: `content[:400]`, plus `"..."` iff the
content is longer than 400 characters. -/
def mkPreview (content : String) : String :=
  let preview := String.mk (content.data.take 400)
  if 400 < content.length then preview ++ "..." else preview

/-- Descending-by-`final_score` comparison; Python's stable
`sort(key=..., reverse=True)` keeps ties in list order, which is insertion
sort with this non-strict relation. -/
def rankedGE {α : Type} [LinearOrderedField α] (a b : RankedChunk α) : Prop :=
  b.final_score ≤ a.final_score

instance instDecRankedGE {α : Type} [LinearOrderedField α] :
    DecidableRel (rankedGE (α := α)) :=
  fun a b => inferInstanceAs (Decidable (b.final_score ≤ a.final_score))

/-- The corpus average token length
(`sum(doc_lengths) / len(doc_lengths) if doc_lengths else 0`). -/
def avgDocLength {α : Type} [LinearOrderedField α] (chunks : List (RAGChunk α)) : α :=
  let doc_lengths := chunks.map (fun c => (tokenize c.content).length)
  if doc_lengths.isEmpty then 0
  else ((doc_lengths.map (fun n : ℕ => (n : α))).sum) / (doc_lengths.length : α)

/-- The per-chunk scoring loop of `rerank` (building the Python local
`ranked`: average document length, IDF table, then one `RankedChunk` per
candidate in input order). -/
def rankChunks {α : Type} [LinearOrderedField α] (p : RerankParams α) (log : α → α)
    (query : String) (chunks : List (RAGChunk α)) : List (RankedChunk α) :=
  let queryTerms := firstOccurrences (tokenize query)
  let doc_lengths := chunks.map (fun c => (tokenize c.content).length)
  let avg_doc_length : α := avgDocLength chunks
  let idf : String → α := idfOf log chunks
  (chunks.zip doc_lengths).map (fun cd =>
    let lexical_score := bm25Score p queryTerms cd.1.content cd.2 avg_doc_length idf
    { chunk := cd.1
      vector_score := cd.1.vector_score
      rerank_score := lexical_score
      final_score := p.vector_weight * cd.1.vector_score + p.lexical_weight * lexical_score
      preview := mkPreview cd.1.content })

/-- `LexicalReranker.rerank`.  `elapsed_ms` stands for the measured wall
clock `(time.time() - start_time) * 1000` of the non-empty path.  Note
`if top_k:` — `None` and `0` are both falsy, so only a nonzero `top_k`
slices. -/
def rerank {α : Type} [LinearOrderedField α] (p : RerankParams α) (log : α → α)
    (query : String) (chunks : List (RAGChunk α)) (top_k : Option ℤ)
    (elapsed_ms : α) : RerankerResult α :=
  match chunks with
  | [] => { ranked_chunks := [], reranker_type := "lexical_bm25", rerank_latency_ms := 0 }
  | _ :: _ =>
    let sorted := List.insertionSort rankedGE (rankChunks p log query chunks)
    let out :=
      match top_k with
      | none => sorted
      | some k => if k = 0 then sorted else pySlice sorted k
    { ranked_chunks := out, reranker_type := "lexical_bm25", rerank_latency_ms := elapsed_ms }

/-! ## RAG prompt injection (`rag_reranker.py`, `RAGTransparency`)

To reason about in-place mutation the Python heap is made explicit: message
dicts live in a `store` (addressed by index), and the caller's message list
is a list of addresses into it.  `messages.copy()` is a shallow copy — the
copied list holds the same addresses. -/

/-- A chat message dict (`msg.get("role")` / `msg.get("content")`; absent
keys are `none`). -/
structure PyMsg where
  role : Option String
  content : Option String
  deriving DecidableEq

/-- The enumerated `"[Source n: title] content"` context block
(`doc_title or doc_id` falls back on `None` and on the empty string). -/
def buildContext {α : Type} (ranked_chunks : List (RankedChunk α)) : String :=
  let parts := ranked_chunks.enum.map (fun irc =>
    let c := irc.2.chunk
    let title :=
      match c.doc_title with
      | some t => if t = "" then c.doc_id else t
      | none => c.doc_id
    "[Source " ++ toString (irc.1 + 1) ++ ": " ++ title ++ "]\n" ++ c.content ++ "\n")
  String.intercalate "\n" parts

/-- The full injected system/user context text. -/
def injectionContent {α : Type} (ranked_chunks : List (RankedChunk α)) : String :=
  "You have access to the following relevant information from the knowledge base. " ++
    "Use this context to provide accurate and grounded responses:\n\n" ++
    buildContext ranked_chunks

/-- `RAGTransparency.inject_chunks_into_prompt` over the explicit heap:
takes the message store and the caller's list of addresses, returns the
updated store and the returned message list (as addresses). -/
def injectChunksIntoPrompt {α : Type} (store : List PyMsg) (messages : List ℕ)
    (ranked_chunks : List (RankedChunk α)) (injection_strategy : String) :
    List PyMsg × List ℕ :=
  if ranked_chunks.isEmpty then (store, messages)
  else
    let inj := injectionContent ranked_chunks
    if injection_strategy = "system" then
      (store ++ [{ role := some "system", content := some inj }],
       store.length :: messages)
    else if injection_strategy = "user" then
      match messages.find? (fun a => ((store.get? a).map
          (fun m => m.role == some "user")).getD false) with
      | some a =>
        match store.get? a with
        | some m =>
          let newContent := inj ++ "\n\n---\n\nUser question: " ++ m.content.getD ""
          (store.set a { m with content := some newContent }, messages)
        | none => (store, messages)
      | none => (store, messages)
    else (store, messages)

/-! ## Concrete fixtures for evaluation -/

/-- A fully capable registered model. -/
def mspecFull (id provider : String) : ModelSpec :=
  { id := id, provider := provider
    supports_tools := true, supports_vision := true, supports_json_schema := true
    max_context_tokens := 128000, max_output_tokens := 4096
    reliability_tier := 2, cost_tier := 2, speed_tier := 2, tags := [] }

/-- A registered model without tool support. -/
def mspecNoTools : ModelSpec :=
  { mspecFull "m-basic" "p" with supports_tools := false }

/-- A concrete caller request. -/
def baseRequest : ProviderRequest :=
  { model := "orig-model", messages := [("user", "hi")]
    temperature := some (7 / 10), max_tokens := some 256, top_p := none
    frequency_penalty := none, presence_penalty := none, tools := none
    tool_choice := none, response_format := none, stream := false, metadata := none }

/-- All breakers fresh (the `defaultdict(CircuitBreakerState)` start state). -/
def freshBreakers : String → CircuitBreakerState := fun _ => initBreaker

/-- Environment for the streaming scenario: `m1` yields one chunk and then
fails with an upstream 500; `m2` streams to completion. -/
def envC1 : ExecEnv :=
  { registry := fun mid =>
      if mid = "m1" then some (mspecFull "m1" "p1")
      else if mid = "m2" then some (mspecFull "m2" "p2") else none
    outcome := fun _ => .timeout
    streamChunks := fun mid =>
      if mid = "m1" then ["Hello"] else if mid = "m2" then ["World"] else []
    streamOutcome := fun mid =>
      if mid = "m1" then
        .providerError (mkProviderError "upstream reset mid-stream" (some 500)
          (some (categorizeError 500)))
      else .ok
    latency := fun _ => 0
    now := 0 }

/-- An HTTP 402 response as the adapter raises it. -/
def e402 : ProviderErrorE :=
  mkProviderError "Payment Required" (some 402) (some (categorizeError 402))

/-- An HTTP 429 response as the adapter raises it. -/
def e429 : ProviderErrorE :=
  mkProviderError "Too Many Requests" (some 429) (some (categorizeError 429))

/-- An HTTP 502 response as the adapter raises it. -/
def e502 : ProviderErrorE :=
  mkProviderError "Bad Gateway" (some 502) (some (categorizeError 502))

/-- Unary environment with the single model `m1` on provider `p1` showing a
fixed adapter outcome. -/
def envSingle (o : AdapterOutcome) : ExecEnv :=
  { registry := fun mid => if mid = "m1" then some (mspecFull "m1" "p1") else none
    outcome := fun _ => o
    streamChunks := fun _ => []
    streamOutcome := fun _ => .ok
    latency := fun _ => 12
    now := 100 }

/-- Unary environment where `m1` fails with a 429 and `m2` with a 502. -/
def envTwoErrors : ExecEnv :=
  { registry := fun mid =>
      if mid = "m1" then some (mspecFull "m1" "p1")
      else if mid = "m2" then some (mspecFull "m2" "p2") else none
    outcome := fun mid => if mid = "m1" then .providerError e429 else .providerError e502
    streamChunks := fun _ => []
    streamOutcome := fun _ => .ok
    latency := fun _ => 12
    now := 100 }

/-- A one-message store whose only message is a user message. -/
def storeW : List PyMsg := [{ role := some "user", content := some "hi" }]

/-- A concrete retrieved chunk over `ℚ`. -/
def chunkQ : RAGChunk ℚ :=
  { doc_id := "doc1", doc_title := some "Doc One", doc_path := none
    chunk_id := "c1", content := "a", vector_score := 0, metadata := none }

/-- A ranked chunk wrapping `chunkQ` (used only for injection, which reads
the chunk itself). -/
def rankedChunkQ : RankedChunk ℚ :=
  { chunk := chunkQ, vector_score := 0, rerank_score := 0, final_score := 0, preview := "a" }

/-- A concrete retrieved chunk over `ℝ` whose single token also makes up the
query in the BM25 counterexample. -/
def chunkR : RAGChunk ℝ :=
  { doc_id := "doc1", doc_title := none, doc_path := none
    chunk_id := "c1", content := "a", vector_score := 0, metadata := none }

/-- Registry holding only a tool-less model. -/
def cfgNoTools : RegistryConfig := { models := [mspecNoTools], routes := [] }

/-- Context that requires tools. -/
def ctxTools : RoutingContext :=
  { last_user_message := "", messages := [], has_code_block := false
    has_attachments := false, rag_enabled := false, estimated_context_tokens := 0
    tools_enabled := true, response_format_required := none }

/-- Context with no requirements. -/
def ctxPlain : RoutingContext :=
  { ctxTools with tools_enabled := false }

/-- Registry holding one fully capable model. -/
def cfgGood : RegistryConfig := { models := [mspecFull "m-good" "p"], routes := [] }

/-- Regex oracle that never matches. -/
def rmNone : String → String → Bool := fun _ _ => false

deriving instance DecidableEq for Except

/-! ## Theorems -/

/-- C1: `stream_with_fallback` is claimed never to attempt a further
candidate once a chunk has been yielded.  Evaluating the code on a chain
`[m1, m2]` where `m1` yields `"Hello"` and then raises an upstream 500 shows
the opposite: the error is swallowed, `m2` is streamed from scratch, and the
caller receives `"Hello"` followed by `m2`'s full stream — the run even ends
successfully, and `m1`'s provider is charged a breaker failure. -/
theorem stream_fallback_restreams_after_first_chunk :
    (streamWithFallback envC1 baseRequest "m1" ["m2"] 30000 freshBreakers).2.emitted =
        ["Hello", "World"] ∧
      (streamWithFallback envC1 baseRequest "m1" ["m2"] 30000 freshBreakers).1 = .ok () ∧
      (streamWithFallback envC1 baseRequest "m1" ["m2"] 30000 freshBreakers).2.invoked =
        ["m1", "m2"] ∧
      ((streamWithFallback envC1 baseRequest "m1" ["m2"] 30000 freshBreakers).2.breakers
          "p1").failure_count = 1 := by
  decide

unseal Rat.sub in
/-- C2: a failure recorded in state `half_open` is claimed to return the
breaker to `open` with `opened_at` reset.  Evaluating the code: open the
breaker with five failures at time 1, probe at time 100 (transition to
`half_open`), then record a failure at time 101 — the breaker remains
`half_open` and `opened_at` keeps its old stamp, so the breaker is stuck
admitting every request. -/
theorem half_open_failure_stays_half_open :
    (runOps initBreaker
        [.failure 1, .failure 1, .failure 1, .failure 1, .failure 1,
         .attempt 100]).state = "half_open" ∧
      ((runOps initBreaker
          [.failure 1, .failure 1, .failure 1, .failure 1, .failure 1,
           .attempt 100]).record_failure 101).state = "half_open" ∧
      ((runOps initBreaker
          [.failure 1, .failure 1, .failure 1, .failure 1, .failure 1,
           .attempt 100]).record_failure 101).opened_at = some 1 ∧
      (((runOps initBreaker
          [.failure 1, .failure 1, .failure 1, .failure 1, .failure 1,
           .attempt 100]).record_failure 101).can_attempt 101).1 = true := by
  decide

/-- Helper: one breaker operation preserves `state = "open" → opened_at` set. -/
theorem stepOp_opened_at (cb : CircuitBreakerState) (op : BreakerOp)
    (h : cb.state = "open" → cb.opened_at ≠ none) :
    (stepOp cb op).state = "open" → (stepOp cb op).opened_at ≠ none := by
  cases op with
  | success =>
    simp only [stepOp, CircuitBreakerState.record_success]
    split_ifs with hs
    · intro hopen; simp at hopen
    · exact h
  | failure now =>
    simp only [stepOp, CircuitBreakerState.record_failure]
    split_ifs with hs
    · intro _; simp
    · exact h
  | attempt now =>
    simp only [stepOp, CircuitBreakerState.can_attempt]
    split_ifs with h1 h2 h3
    · exact h
    · intro hopen; simp at hopen
    · exact h
    · exact h
    · exact h

/-- Helper: one breaker operation preserves `state = "open" → threshold ≤
count`, provided no success is recorded while the breaker is open. -/
theorem stepOp_count (cb : CircuitBreakerState) (op : BreakerOp)
    (hop : op = .success → cb.state ≠ "open")
    (h : cb.state = "open" → cb.failure_threshold ≤ cb.failure_count) :
    (stepOp cb op).state = "open" →
      (stepOp cb op).failure_threshold ≤ (stepOp cb op).failure_count := by
  cases op with
  | success =>
    have hne : cb.state ≠ "open" := hop rfl
    simp only [stepOp, CircuitBreakerState.record_success]
    split_ifs with hs
    · intro hopen; simp at hopen
    · intro hopen; simp at hopen; exact absurd hopen hne
  | failure now =>
    simp only [stepOp, CircuitBreakerState.record_failure]
    split_ifs with hs
    · intro _; exact hs.2
    · intro hopen
      simp only at hopen
      exact le_trans (h hopen) (Nat.le_succ _)
  | attempt now =>
    simp only [stepOp, CircuitBreakerState.can_attempt]
    split_ifs with h1 h2 h3
    · exact h
    · intro hopen; simp at hopen
    · exact h
    · exact h
    · exact h

/-- Helper: `runOps` preserves both invariant parts. -/
theorem runOps_invariants (ops : List BreakerOp) :
    ∀ cb : CircuitBreakerState,
      (cb.state = "open" → cb.opened_at ≠ none) →
      ((runOps cb ops).state = "open" → (runOps cb ops).opened_at ≠ none) ∧
      ((cb.state = "open" → cb.failure_threshold ≤ cb.failure_count) →
        noSuccessWhileOpen cb ops = true →
        (runOps cb ops).state = "open" →
          (runOps cb ops).failure_threshold ≤ (runOps cb ops).failure_count) := by
  induction ops with
  | nil => intro cb h1; exact ⟨h1, fun h2 _ => h2⟩
  | cons op rest ih =>
    intro cb h1
    have hstep1 := stepOp_opened_at cb op h1
    have ihs := ih (stepOp cb op) hstep1
    refine ⟨ihs.1, ?_⟩
    intro h2 hns
    have hns' : (!(op == BreakerOp.success && cb.state == "open")) = true ∧
        noSuccessWhileOpen (stepOp cb op) rest = true := by
      simpa [noSuccessWhileOpen, Bool.and_eq_true] using hns
    have hop : op = .success → cb.state ≠ "open" := by
      intro hopeq hsteq
      have := hns'.1
      simp [hopeq, hsteq] at this
    exact ihs.2 (stepOp_count cb op hop h2) hns'.2

/-- C3: for breaker states reachable from a fresh breaker by any sequence of
`record_success` / `record_failure` / `can_attempt` (the admin reset acts as
a synthetic `record_success`), the state `"open"` always has `opened_at`
set; the second half of the claimed invariant, `failure_count ≥ threshold`,
holds as long as no success is recorded while the breaker is open (the
counterexample shows the reset endpoint breaks it otherwise). -/
theorem breaker_open_invariant (ft : ℕ) (ts : ℚ) (ha : ℕ) (ops : List BreakerOp) :
    ((runOps (initBreaker ft ts ha) ops).state = "open" →
      (runOps (initBreaker ft ts ha) ops).opened_at ≠ none) ∧
    (noSuccessWhileOpen (initBreaker ft ts ha) ops = true →
      (runOps (initBreaker ft ts ha) ops).state = "open" →
      (runOps (initBreaker ft ts ha) ops).failure_threshold ≤
        (runOps (initBreaker ft ts ha) ops).failure_count) := by
  have h := runOps_invariants ops (initBreaker ft ts ha)
    (by intro h; simp [initBreaker] at h)
  exact ⟨h.1, fun hns => h.2 (by intro h'; simp [initBreaker] at h') hns⟩

/-- Witness for `breaker_open_invariant`: five failures open the breaker and
both conclusions hold there. -/
theorem breaker_open_invariant_witness :
    (noSuccessWhileOpen (initBreaker 5 60 1)
        [.failure 1, .failure 1, .failure 1, .failure 1, .failure 1] = true) ∧
      ((runOps (initBreaker 5 60 1)
          [.failure 1, .failure 1, .failure 1, .failure 1, .failure 1]).state = "open") ∧
      ((runOps (initBreaker 5 60 1)
          [.failure 1, .failure 1, .failure 1, .failure 1, .failure 1]).opened_at ≠ none) ∧
      ((runOps (initBreaker 5 60 1)
          [.failure 1, .failure 1, .failure 1, .failure 1, .failure 1]).failure_threshold ≤
        (runOps (initBreaker 5 60 1)
          [.failure 1, .failure 1, .failure 1, .failure 1, .failure 1]).failure_count) :=
  ⟨by decide, by decide,
    (breaker_open_invariant 5 60 1
      [.failure 1, .failure 1, .failure 1, .failure 1, .failure 1]).1 (by decide),
    (breaker_open_invariant 5 60 1
      [.failure 1, .failure 1, .failure 1, .failure 1, .failure 1]).2 (by decide) (by decide)⟩

/-- Counterexample for C3 as claimed: the admin reset (a synthetic
`record_success`) on an open breaker zeroes the failure counter but leaves
the state `"open"`, so `state = open ∧ failure_count < threshold`. -/
theorem breaker_reset_on_open_breaks_invariant :
    (runOps (initBreaker 5 60 1)
        [.failure 1, .failure 1, .failure 1, .failure 1, .failure 1,
         .success]).state = "open" ∧
      (runOps (initBreaker 5 60 1)
          [.failure 1, .failure 1, .failure 1, .failure 1, .failure 1,
           .success]).failure_count <
        (runOps (initBreaker 5 60 1)
            [.failure 1, .failure 1, .failure 1, .failure 1, .failure 1,
             .success]).failure_threshold := by
  decide

/-- Helper: reading an updated map at the updated key. -/
theorem updateMap_same {β : Type} (m : String → β) (k : String) (v : β) :
    updateMap m k v k = v := by
  simp [updateMap]

/-- C4 (amended): in `execute_with_fallback`, an attempt failing with a typed
provider error records a breaker failure exactly when the error's status
code is ≥ 500 or its taxonomy tag is `timeout`.  For adapter-produced
errors this counts every `server_error` (and the fixed-status-500 `network`
and `unknown` exceptions), while the tags `invalid_request`,
`authentication`, `permission`, `not_found`, `rate_limit` never count; a
non-5xx status that `_categorize_error` maps to `unknown` (the
counterexample's 402) does not count despite its tag. -/
theorem breaker_failure_accounting (env : ExecEnv) (req : ProviderRequest)
    (mid : String) (tms : ℤ) (b0 : String → CircuitBreakerState)
    (model : ModelSpec) (e : ProviderErrorE)
    (hreg : env.registry mid = some model)
    (hclosed : (b0 model.provider).state = "closed")
    (hout : env.outcome mid = .providerError e) :
    (((∃ s : ℤ, e.status_code = some s ∧ 500 ≤ s) ∨ e.error_type = "timeout") →
      (executeWithFallback env req mid [] tms b0).2.breakers model.provider =
        (b0 model.provider).record_failure env.now) ∧
    (¬((∃ s : ℤ, e.status_code = some s ∧ 500 ≤ s) ∨ e.error_type = "timeout") →
      (executeWithFallback env req mid [] tms b0).2.breakers model.provider =
        b0 model.provider) ∧
    (∀ s : ℤ, categorizeError s = "server_error" → 500 ≤ s) ∧
    (∀ s : ℤ,
      categorizeError s = "invalid_request" ∨ categorizeError s = "authentication" ∨
        categorizeError s = "permission" ∨ categorizeError s = "not_found" ∨
        categorizeError s = "rate_limit" →
      ¬500 ≤ s ∧ categorizeError s ≠ "timeout") := by
  have hcan : (b0 model.provider).can_attempt env.now = (true, b0 model.provider) := by
    unfold CircuitBreakerState.can_attempt
    rw [if_pos hclosed]
  have hcond : providerErrorCounts e = true ↔
      ((∃ s : ℤ, e.status_code = some s ∧ 500 ≤ s) ∨ e.error_type = "timeout") := by
    unfold providerErrorCounts
    cases hsc : e.status_code with
    | none => simp
    | some s =>
      simp only [Bool.or_eq_true, decide_eq_true_eq]
      constructor
      · rintro (⟨-, h500⟩ | ht)
        · exact Or.inl ⟨s, rfl, h500⟩
        · exact Or.inr ht
      · rintro (⟨s', hs', h500⟩ | ht)
        · injection hs' with hss
          exact Or.inl ⟨by omega, by omega⟩
        · exact Or.inr ht
  have hrun : (executeWithFallback env req mid [] tms b0).2.breakers model.provider =
      if providerErrorCounts e then (b0 model.provider).record_failure env.now
      else b0 model.provider := by
    unfold executeWithFallback execGo fallbackStep
    rw [hreg]
    simp only [hcan, Bool.not_true, Bool.false_eq_true, if_false, hout, updateMap_same]
    by_cases hc : providerErrorCounts e
    · simp [execGo, hc, recordFailureFor, updateMap]
    · simp [execGo, hc, updateMap]
  refine ⟨?_, ?_, ?_, ?_⟩
  · intro hC
    rw [hrun, if_pos (hcond.mpr hC)]
  · intro hC
    rw [hrun, if_neg (fun hb => hC (hcond.mp hb))]
  · intro s hs
    unfold categorizeError at hs
    split_ifs at hs with h1 h2 h3 h4 h5 h6 h7
    · exact absurd hs (by decide)
    · exact absurd hs (by decide)
    · exact absurd hs (by decide)
    · exact absurd hs (by decide)
    · exact absurd hs (by decide)
    · exact absurd hs (by decide)
    · exact h7.1
    · exact absurd hs (by decide)
  · intro s hs
    unfold categorizeError at hs
    split_ifs at hs with h1 h2 h3 h4 h5 h6 h7
    · exact ⟨by omega, by rw [show s = 400 from h1]; decide⟩
    · exact ⟨by omega, by rw [show s = 401 from h2]; decide⟩
    · exact ⟨by omega, by rw [show s = 403 from h3]; decide⟩
    · exact ⟨by omega, by rw [show s = 404 from h4]; decide⟩
    · exact absurd hs (by decide)
    · exact ⟨by omega, by rw [show s = 429 from h6]; decide⟩
    · exact absurd hs (by decide)
    · exact absurd hs (by decide)

/-- Witness for `breaker_failure_accounting`: a 502 `server_error` on a fresh
breaker records exactly one failure. -/
theorem breaker_failure_accounting_witness :
    (envSingle (.providerError e502)).registry "m1" = some (mspecFull "m1" "p1") ∧
      (freshBreakers (mspecFull "m1" "p1").provider).state = "closed" ∧
      (executeWithFallback (envSingle (.providerError e502)) baseRequest "m1" [] 30000
          freshBreakers).2.breakers (mspecFull "m1" "p1").provider =
        (freshBreakers (mspecFull "m1" "p1").provider).record_failure
          (envSingle (.providerError e502)).now :=
  ⟨rfl, rfl,
    (breaker_failure_accounting (envSingle (.providerError e502)) baseRequest "m1" 30000
        freshBreakers (mspecFull "m1" "p1") e502 rfl rfl rfl).1
      (Or.inl ⟨502, rfl, by norm_num⟩)⟩

set_option maxRecDepth 10000 in
/-- Counterexample for C4 as claimed: an HTTP 402 is categorized `unknown`
(a tag in the claimed always-counting set) yet `execute_with_fallback`
leaves the provider's breaker untouched — the recorded attempt carries the
tag, but no failure is charged. -/
theorem unknown_tag_without_5xx_not_counted :
    categorizeError 402 = "unknown" ∧
      e402.error_type = "unknown" ∧
      (executeWithFallback (envSingle (.providerError e402)) baseRequest "m1" [] 30000
          freshBreakers).2.breakers "p1" = initBreaker ∧
      ((executeWithFallback (envSingle (.providerError e402)) baseRequest "m1" [] 30000
          freshBreakers).2.breakers "p1").failure_count = 0 ∧
      (executeWithFallback (envSingle (.providerError e402)) baseRequest "m1" [] 30000
          freshBreakers).2.attempts =
        [{ attempt_n := 1, model_id := "m1", provider := "p1", status_code := some 402
           error_type := some "unknown", error_short := some "Payment Required"
           latency_ms := 12 }] := by
  decide

/-- Helper: every error value `execGo` can produce is the synthetic
`all_fallbacks_failed` one. -/
theorem execGo_error_shape (env : ExecEnv) (tms : ℤ) :
    ∀ (chain : List String) (st : ExecState) (n : ℕ) (e : ProviderErrorE),
      (execGo env tms st n chain).1 = .error e → e = allFallbacksFailedError := by
  intro chain
  induction chain with
  | nil =>
    intro st n e h
    simp only [execGo] at h
    exact (Except.error.injEq _ _ ▸ h.symm)
  | cons mid rest ih =>
    intro st n e h
    rcases hstep : fallbackStep env tms st n mid with ⟨st2, o⟩
    cases o with
    | some resp => simp [execGo, hstep] at h
    | none =>
      simp only [execGo, hstep] at h
      exact ih st2 (n + 1) e h

/-- C5 (amended): `execute_with_fallback` fails exactly when no candidate in
`[primary] ++ fallbacks` succeeds, and the error it raises is always the
synthetic `all_fallbacks_failed` `ProviderError` whose only payload is the
message, status 500 and the tag — the per-candidate attempt list accumulated
during the run is not attached to it (the counterexample shows two runs with
different attempt lists raising identical errors). -/
theorem all_fallbacks_failed_error_shape (env : ExecEnv) (req : ProviderRequest)
    (primary : String) (fallbacks : List String) (tms : ℤ)
    (b0 : String → CircuitBreakerState) (e : ProviderErrorE)
    (h : (executeWithFallback env req primary fallbacks tms b0).1 = .error e) :
    e = allFallbacksFailedError ∧
      e.message = "All models in fallback chain failed" ∧
      e.status_code = some 500 ∧ e.error_type = "all_fallbacks_failed" := by
  have he := execGo_error_shape env tms (primary :: fallbacks) _ 1 e h
  subst he
  exact ⟨rfl, rfl, rfl, rfl⟩

set_option maxRecDepth 10000 in
/-- Witness for `all_fallbacks_failed_error_shape`: a single rate-limited
candidate makes the run fail with the synthetic error. -/
theorem all_fallbacks_failed_error_shape_witness :
    (executeWithFallback (envSingle (.providerError e429)) baseRequest "m1" [] 30000
        freshBreakers).1 = .error allFallbacksFailedError ∧
      allFallbacksFailedError.error_type = "all_fallbacks_failed" :=
  ⟨by decide,
    (all_fallbacks_failed_error_shape (envSingle (.providerError e429)) baseRequest "m1" []
        30000 freshBreakers allFallbacksFailedError (by decide)).2.2.2⟩

set_option maxRecDepth 10000 in
/-- Counterexample for C5 as claimed: two runs that accumulate different
attempt lists (one attempt vs. two) raise literally identical errors, so the
raised error cannot carry the attempt list. -/
theorem error_does_not_carry_attempts :
    (executeWithFallback (envSingle (.providerError e429)) baseRequest "m1" [] 30000
        freshBreakers).1 =
      (executeWithFallback envTwoErrors baseRequest "m1" ["m2"] 30000 freshBreakers).1 ∧
      (executeWithFallback (envSingle (.providerError e429)) baseRequest "m1" [] 30000
          freshBreakers).2.attempts.length = 1 ∧
      (executeWithFallback envTwoErrors baseRequest "m1" ["m2"] 30000
          freshBreakers).2.attempts.length = 2 ∧
      (executeWithFallback (envSingle (.providerError e429)) baseRequest "m1" [] 30000
          freshBreakers).2.attempts ≠
        (executeWithFallback envTwoErrors baseRequest "m1" ["m2"] 30000
            freshBreakers).2.attempts := by
  decide

/-- Helper: `Option.or` distributes over `getD`. -/
theorem or_getD {α : Type} (o1 o2 : Option α) (d : α) :
    (o1.or o2).getD d = o1.getD (o2.getD d) := by
  cases o1 <;> simp

/-- Helper: the last element of a concatenation, with default. -/
theorem getLast?_getD_append {α : Type} (t1 t2 : List α) (d : α) :
    ((t1 ++ t2).getLast?.getD d) = t2.getLast?.getD (t1.getLast?.getD d) := by
  rw [List.getLast?_append, or_getD]

/-- Helper: one executor loop iteration either leaves the caller's request
untouched (candidate skipped) or overwrites exactly its `model` field with
the candidate id while appending that id to the invocation trace. -/
theorem fallbackStep_req (env : ExecEnv) (tms : ℤ) (st : ExecState) (n : ℕ)
    (mid : String) :
    ∃ t : List String,
      (fallbackStep env tms st n mid).1.invoked = st.invoked ++ t ∧
      (fallbackStep env tms st n mid).1.req =
        { st.req with model := t.getLast?.getD st.req.model } := by
  unfold fallbackStep
  cases hreg : env.registry mid with
  | none => exact ⟨[], by simp⟩
  | some model =>
    rcases hcan : (st.breakers model.provider).can_attempt env.now with ⟨ok, cb2⟩
    cases ok with
    | false => exact ⟨[], by simp [hcan]⟩
    | true =>
      cases hout : env.outcome mid with
      | success resp =>
        refine ⟨[mid], ?_⟩
        simp only [hcan, hout]
        by_cases hn : 1 < n <;> simp [hn]
      | timeout => exact ⟨[mid], by simp [hcan, hout]⟩
      | providerError e =>
        refine ⟨[mid], ?_⟩
        simp only [hcan, hout]
        by_cases hc : providerErrorCounts e <;> simp [hc]
      | exception msg => exact ⟨[mid], by simp [hcan, hout]⟩

/-- Helper: over a whole `execute_with_fallback` run the caller's request is
`{original with model := last id assigned}`. -/
theorem execGo_req (env : ExecEnv) (tms : ℤ) :
    ∀ (chain : List String) (st : ExecState) (n : ℕ),
      ∃ t : List String,
        (execGo env tms st n chain).2.invoked = st.invoked ++ t ∧
        (execGo env tms st n chain).2.req =
          { st.req with model := t.getLast?.getD st.req.model } := by
  intro chain
  induction chain with
  | nil => intro st n; exact ⟨[], by simp [execGo]⟩
  | cons mid rest ih =>
    intro st n
    obtain ⟨t1, hi1, hr1⟩ := fallbackStep_req env tms st n mid
    rcases hstep : fallbackStep env tms st n mid with ⟨st2, o⟩
    rw [hstep] at hi1 hr1
    cases o with
    | some resp =>
      refine ⟨t1, ?_, ?_⟩
      · rw [show (execGo env tms st n (mid :: rest)).2 = st2 from by simp [execGo, hstep]]
        exact hi1
      · rw [show (execGo env tms st n (mid :: rest)).2 = st2 from by simp [execGo, hstep]]
        exact hr1
    | none =>
      obtain ⟨t2, hi2, hr2⟩ := ih st2 (n + 1)
      refine ⟨t1 ++ t2, ?_, ?_⟩
      · rw [show (execGo env tms st n (mid :: rest)).2 = (execGo env tms st2 (n + 1) rest).2
            from by simp [execGo, hstep]]
        rw [hi2, hi1, List.append_assoc]
      · rw [show (execGo env tms st n (mid :: rest)).2 = (execGo env tms st2 (n + 1) rest).2
            from by simp [execGo, hstep]]
        rw [hr2, hr1, getLast?_getD_append]

/-- Helper: one streaming loop iteration either leaves the caller's request
untouched or overwrites exactly its `model` field with the candidate id. -/
theorem streamStep_req (env : ExecEnv) (st : StreamState) (mid : String) :
    ∃ t : List String,
      (streamStep env st mid).1.invoked = st.invoked ++ t ∧
      (streamStep env st mid).1.req =
        { st.req with model := t.getLast?.getD st.req.model } := by
  unfold streamStep
  cases hreg : env.registry mid with
  | none => exact ⟨[], by simp⟩
  | some model =>
    rcases hcan : (st.breakers model.provider).can_attempt env.now with ⟨ok, cb2⟩
    cases ok with
    | false => exact ⟨[], by simp [hcan]⟩
    | true =>
      cases hout : env.streamOutcome mid with
      | ok => exact ⟨[mid], by simp [hcan, hout]⟩
      | providerError e =>
        refine ⟨[mid], ?_⟩
        simp only [hcan, hout]
        by_cases hc : streamErrorCounts e <;> simp [hc]
      | exception msg => exact ⟨[mid], by simp [hcan, hout]⟩

/-- Helper: the streaming loop has the same request-mutation shape. -/
theorem streamGo_req (env : ExecEnv) :
    ∀ (chain : List String) (st : StreamState) (n : ℕ),
      ∃ t : List String,
        (streamGo env st n chain).2.invoked = st.invoked ++ t ∧
        (streamGo env st n chain).2.req =
          { st.req with model := t.getLast?.getD st.req.model } := by
  intro chain
  induction chain with
  | nil => intro st n; exact ⟨[], by simp [streamGo]⟩
  | cons mid rest ih =>
    intro st n
    obtain ⟨t1, hi1, hr1⟩ := streamStep_req env st mid
    rcases hstep : streamStep env st mid with ⟨st2, flag⟩
    rw [hstep] at hi1 hr1
    cases flag with
    | true =>
      refine ⟨t1, ?_, ?_⟩
      · rw [show (streamGo env st n (mid :: rest)).2 = st2 from by simp [streamGo, hstep]]
        exact hi1
      · rw [show (streamGo env st n (mid :: rest)).2 = st2 from by simp [streamGo, hstep]]
        exact hr1
    | false =>
      obtain ⟨t2, hi2, hr2⟩ := ih st2 (n + 1)
      refine ⟨t1 ++ t2, ?_, ?_⟩
      · rw [show (streamGo env st n (mid :: rest)).2 = (streamGo env st2 (n + 1) rest).2
            from by simp [streamGo, hstep]]
        rw [hi2, hi1, List.append_assoc]
      · rw [show (streamGo env st n (mid :: rest)).2 = (streamGo env st2 (n + 1) rest).2
            from by simp [streamGo, hstep]]
        rw [hr2, hr1, getLast?_getD_append]

/-- C10: both `execute_with_fallback` and `stream_with_fallback` mutate the
caller's `ProviderRequest` in place: after the call (whether it returns or
raises) the request equals the original with only its `model` field
overwritten by the id of the last candidate whose adapter was invoked (the
ghost trace `invoked` records exactly the `request.model = model_id`
assignments, each immediately followed by the adapter call); if no adapter
was ever invoked the request is unchanged, and every other field is
untouched in all cases. -/
theorem executor_mutates_request_model (env : ExecEnv) (req : ProviderRequest)
    (primary : String) (fallbacks : List String) (tms : ℤ)
    (b0 : String → CircuitBreakerState) :
    ((executeWithFallback env req primary fallbacks tms b0).2.req =
      { req with model :=
          (((executeWithFallback env req primary fallbacks tms b0).2.invoked).getLast?.getD
            req.model) }) ∧
    ((streamWithFallback env req primary fallbacks tms b0).2.req =
      { req with model :=
          (((streamWithFallback env req primary fallbacks tms b0).2.invoked).getLast?.getD
            req.model) }) := by
  constructor
  · obtain ⟨t, hi, hr⟩ := execGo_req env tms (primary :: fallbacks)
      { breakers := b0, req := req, attempts := [], invoked := [] } 1
    simp only [List.nil_append] at hi
    rw [executeWithFallback, hr, hi]
  · obtain ⟨t, hi, hr⟩ := streamGo_req env (primary :: fallbacks)
      { breakers := b0, req := req, emitted := [], invoked := [] } 1
    simp only [List.nil_append] at hi
    rw [streamWithFallback, hr, hi]

/-- C6 (amended): `inject_chunks_into_prompt` with an empty ranked list
returns the very same store and message list, and under the `"system"`
strategy it never modifies any existing message object (it only allocates a
fresh system message and returns a fresh list).  The original claim also
covered the `"user"` strategy, which the counterexample shows mutating the
caller's first user-message object in place. -/
theorem inject_chunks_frame {α : Type} (store : List PyMsg) (messages : List ℕ)
    (strategy : String) (ranked : List (RankedChunk α)) :
    (ranked = [] →
      injectChunksIntoPrompt store messages ranked strategy = (store, messages)) ∧
    (strategy = "system" → ∀ i : ℕ, i < store.length →
      (injectChunksIntoPrompt store messages ranked strategy).1.get? i = store.get? i) := by
  constructor
  · intro h
    subst h
    simp [injectChunksIntoPrompt]
  · intro hs i hi
    subst hs
    by_cases hr : ranked.isEmpty
    · simp [injectChunksIntoPrompt, hr]
    · simp only [injectChunksIntoPrompt, hr, Bool.false_eq_true, if_false, if_pos rfl]
      exact List.get?_append hi

set_option maxRecDepth 10000 in
/-- Witness for `inject_chunks_frame`: empty injection is the identity, and
the system strategy leaves the stored user message untouched. -/
theorem inject_chunks_frame_witness :
    (injectChunksIntoPrompt storeW [0] ([] : List (RankedChunk ℚ)) "user" =
      (storeW, [0])) ∧
      (injectChunksIntoPrompt storeW [0] [rankedChunkQ] "system").1.get? 0 =
        storeW.get? 0 :=
  ⟨(inject_chunks_frame storeW [0] "user" ([] : List (RankedChunk ℚ))).1 rfl,
    (inject_chunks_frame storeW [0] "system" [rankedChunkQ]).2 rfl 0 (by decide)⟩

set_option maxRecDepth 10000 in
/-- Counterexample for C6 as claimed: under the `"user"` strategy, injecting
one chunk into a store holding a single user message rewrites the message
object at address 0 in place — the address the caller's own list still
refers to — so the caller's message object is mutated (the returned list is
the same address list). -/
theorem user_strategy_mutates_caller_message :
    (injectChunksIntoPrompt storeW [0] [rankedChunkQ] "user").2 = [0] ∧
      (injectChunksIntoPrompt storeW [0] [rankedChunkQ] "user").1.get? 0 ≠
        storeW.get? 0 ∧
      ((injectChunksIntoPrompt storeW [0] [rankedChunkQ] "user").1.get? 0).map
          PyMsg.role = some (some "user") := by
  decide

/-- Helper: a Python slice is a sublist. -/
theorem pySlice_sublist {β : Type} (l : List β) (k : ℤ) : (pySlice l k).Sublist l := by
  unfold pySlice
  split <;> exact List.take_sublist _ _

/-- Helper: previews never exceed 403 characters (400 plus the ellipsis). -/
theorem mkPreview_length (content : String) : (mkPreview content).length ≤ 403 := by
  unfold mkPreview
  have htake : (String.mk (content.data.take 400)).length ≤ 400 := by
    show (content.data.take 400).length ≤ 400
    rw [List.length_take]
    exact min_le_left _ _
  split
  · rw [String.length_append]
    have h3 : ("..." : String).length = 3 := rfl
    omega
  · exact le_trans htake (by omega)

/-- Helper: the average document length is nonnegative. -/
theorem avgDocLength_nonneg {α : Type} [LinearOrderedField α]
    (chunks : List (RAGChunk α)) : 0 ≤ avgDocLength chunks := by
  simp only [avgDocLength]
  split
  · exact le_refl 0
  · refine div_nonneg (List.sum_nonneg ?_) (Nat.cast_nonneg _)
    intro x hx
    obtain ⟨n, -, rfl⟩ := List.mem_map.1 hx
    exact Nat.cast_nonneg n

/-- Helper: every entry of `rankChunks` carries an `mkPreview` preview and a
`bm25Score` lexical score at the corpus average length. -/
theorem mem_rankChunks {α : Type} [LinearOrderedField α] (p : RerankParams α)
    (log : α → α) (query : String) (chunks : List (RAGChunk α))
    {rc : RankedChunk α} (h : rc ∈ rankChunks p log query chunks) :
    rc.preview = mkPreview rc.chunk.content ∧
      ∃ dl : ℕ,
        rc.rerank_score = bm25Score p (firstOccurrences (tokenize query))
          rc.chunk.content dl (avgDocLength chunks) (idfOf log chunks) := by
  unfold rankChunks at h
  obtain ⟨cd, hmem, hrc⟩ := List.mem_map.1 h
  subst hrc
  exact ⟨rfl, cd.2, rfl⟩

/-- Helper: the relation `rankedGE` is total and transitive. -/
theorem rankedGE_total {α : Type} [LinearOrderedField α] :
    ∀ a b : RankedChunk α, rankedGE a b ∨ rankedGE b a :=
  fun a b => le_total b.final_score a.final_score

/-- Helper: transitivity of `rankedGE`. -/
theorem rankedGE_trans {α : Type} [LinearOrderedField α] :
    ∀ a b c : RankedChunk α, rankedGE a b → rankedGE b c → rankedGE a c :=
  fun _ _ _ hab hbc => le_trans hbc hab

/-- C7 (amended): every reranker output is sorted by `final_score`
descending, every preview has at most 403 characters, and for every
requested `top_k ≥ 1` at most `top_k` chunks are returned.  (For
`top_k = 0` the Python truthiness check skips the slice — the
counterexample — and `top_k = None` means no limit by contract.) -/
theorem rerank_output_invariants {α : Type} [LinearOrderedField α]
    (p : RerankParams α) (log : α → α) (query : String) (chunks : List (RAGChunk α))
    (top_k : Option ℤ) (elapsed : α) :
    List.Sorted rankedGE (rerank p log query chunks top_k elapsed).ranked_chunks ∧
    (∀ rc ∈ (rerank p log query chunks top_k elapsed).ranked_chunks,
      rc.preview.length ≤ 403) ∧
    (∀ k : ℤ, top_k = some k → 1 ≤ k →
      (rerank p log query chunks top_k elapsed).ranked_chunks.length ≤ k.toNat) := by
  cases chunks with
  | nil =>
    refine ⟨by simp [rerank], by simp [rerank], fun k hk h1 => by simp [rerank]⟩
  | cons c cs =>
    have hsorted : List.Sorted rankedGE
        (List.insertionSort rankedGE (rankChunks p log query (c :: cs))) := by
      haveI : IsTotal (RankedChunk α) rankedGE := ⟨rankedGE_total⟩
      haveI : IsTrans (RankedChunk α) rankedGE := ⟨rankedGE_trans⟩
      exact List.sorted_insertionSort rankedGE _
    have hout : (rerank p log query (c :: cs) top_k elapsed).ranked_chunks.Sublist
        (List.insertionSort rankedGE (rankChunks p log query (c :: cs))) := by
      unfold rerank
      cases top_k with
      | none => exact List.Sublist.refl _
      | some k =>
        by_cases hk : k = 0
        · simp only [hk, if_pos rfl]
          exact List.Sublist.refl _
        · simp only [if_neg hk]
          exact pySlice_sublist _ _
    refine ⟨List.Pairwise.sublist hout hsorted, ?_, ?_⟩
    · intro rc hrc
      have hrc2 : rc ∈ List.insertionSort rankedGE (rankChunks p log query (c :: cs)) :=
        hout.subset hrc
      have hrc3 : rc ∈ rankChunks p log query (c :: cs) :=
        (List.perm_insertionSort rankedGE _).mem_iff.1 hrc2
      obtain ⟨hp, -⟩ := mem_rankChunks p log query (c :: cs) hrc3
      rw [hp]
      exact mkPreview_length _
    · intro k hk h1
      subst hk
      have hk0 : k ≠ 0 := by omega
      have : (rerank p log query (c :: cs) (some k) elapsed).ranked_chunks =
          pySlice (List.insertionSort rankedGE (rankChunks p log query (c :: cs))) k := by
        unfold rerank
        simp [hk0]
      rw [this]
      unfold pySlice
      rw [if_pos (by omega : (0:ℤ) ≤ k), List.length_take]
      exact min_le_left _ _

/-- Witness for `rerank_output_invariants` at a concrete `ℚ` input with
`top_k = 1`. -/
theorem rerank_output_invariants_witness :
    ((1:ℤ) ≤ 1) ∧
      List.Sorted rankedGE
        (rerank (defaultRerankParams ℚ) (fun _ => 0) "a" [chunkQ] (some 1) 0).ranked_chunks ∧
      (rerank (defaultRerankParams ℚ) (fun _ => 0) "a" [chunkQ]
          (some 1) 0).ranked_chunks.length ≤ (1:ℤ).toNat :=
  ⟨by norm_num,
    (rerank_output_invariants (defaultRerankParams ℚ) (fun _ => 0) "a" [chunkQ]
        (some 1) 0).1,
    (rerank_output_invariants (defaultRerankParams ℚ) (fun _ => 0) "a" [chunkQ]
        (some 1) 0).2.2 1 rfl (by norm_num)⟩

set_option maxRecDepth 10000 in
/-- Counterexample for C7 as claimed: requesting `top_k = 0` returns the
whole candidate list, not at most `0` chunks — `if top_k:` treats `0` as
falsy and skips the slice. -/
theorem rerank_topk_zero_returns_all :
    (rerank (defaultRerankParams ℚ) (fun _ => 0) "a" [chunkQ]
        (some 0) 0).ranked_chunks.length = 1 ∧
      ¬((rerank (defaultRerankParams ℚ) (fun _ => 0) "a" [chunkQ]
          (some 0) 0).ranked_chunks.length ≤ (0:ℤ).toNat) := by
  decide

/-- Helper: with `0 ≤ b ≤ 1` the length-normalization factor is nonnegative. -/
theorem bm25Norm_nonneg {α : Type} [LinearOrderedField α] (p : RerankParams α)
    (hb0 : 0 ≤ p.b) (hb1 : p.b ≤ 1) (dl : ℕ) (avg : α) :
    0 ≤ bm25Norm p dl avg := by
  unfold bm25Norm
  split_ifs with havg
  · have h1 : 0 ≤ p.b * ((dl : α) / avg) :=
      mul_nonneg hb0 (div_nonneg (Nat.cast_nonneg _) (le_of_lt havg))
    linarith
  · exact zero_le_one

/-- Helper: with nonnegative IDF each term score lies in
`[0, idf t * (k1 + 1)]`. -/
theorem bm25TermScore_bounds {α : Type} [LinearOrderedField α] (p : RerankParams α)
    (hk1 : 0 < p.k1) (hb0 : 0 ≤ p.b) (hb1 : p.b ≤ 1)
    (docTokens : List String) (dl : ℕ) (avg : α) (idf : String → α) (t : String)
    (hidf : 0 ≤ idf t) :
    0 ≤ bm25TermScore p docTokens dl avg idf t ∧
      bm25TermScore p docTokens dl avg idf t ≤ idf t * (p.k1 + 1) := by
  simp only [bm25TermScore]
  split_ifs with htf
  · exact ⟨le_refl 0, mul_nonneg hidf (by linarith)⟩
  · have htf1 : (1 : α) ≤ (docTokens.count t : α) := by
      exact_mod_cast Nat.one_le_iff_ne_zero.2 htf
    have hnorm : 0 ≤ bm25Norm p dl avg := bm25Norm_nonneg p hb0 hb1 dl avg
    have hk1norm : 0 ≤ p.k1 * bm25Norm p dl avg := mul_nonneg (le_of_lt hk1) hnorm
    have hden : 0 < (docTokens.count t : α) + p.k1 * bm25Norm p dl avg := by linarith
    constructor
    · exact div_nonneg
        (mul_nonneg hidf (mul_nonneg (by linarith) (by linarith))) (le_of_lt hden)
    · rw [mul_div_assoc]
      refine mul_le_mul_of_nonneg_left ?_ hidf
      rw [div_le_iff hden]
      nlinarith

/-- Helper: summing `f · * c` over a list multiplies the sum by `c`. -/
theorem sum_map_mul_const {α : Type} [LinearOrderedField α] (f : String → α)
    (c : α) : ∀ l : List String, (l.map (fun t => f t * c)).sum = (l.map f).sum * c
  | [] => by simp
  | q :: qs => by simp [sum_map_mul_const f c qs, add_mul]

/-- Helper: with nonnegative IDF over the query terms, the normalized BM25
score lies in `[0, 1]`. -/
theorem bm25Score_unit {α : Type} [LinearOrderedField α] (p : RerankParams α)
    (hk1 : 0 < p.k1) (hb0 : 0 ≤ p.b) (hb1 : p.b ≤ 1)
    (qts : List String) (doc : String) (dl : ℕ) (avg : α)
    (idf : String → α) (hidf : ∀ t ∈ qts, 0 ≤ idf t) :
    0 ≤ bm25Score p qts doc dl avg idf ∧ bm25Score p qts doc dl avg idf ≤ 1 := by
  simp only [bm25Score]
  have hscore0 : 0 ≤ (qts.map (bm25TermScore p (tokenize doc) dl avg idf)).sum := by
    apply List.sum_nonneg
    intro x hx
    obtain ⟨t, ht, rfl⟩ := List.mem_map.1 hx
    exact (bm25TermScore_bounds p hk1 hb0 hb1 (tokenize doc) dl avg idf t (hidf t ht)).1
  have hscore_le : (qts.map (bm25TermScore p (tokenize doc) dl avg idf)).sum ≤
      (qts.map (fun t => idf t * (p.k1 + 1))).sum := by
    apply List.sum_le_sum
    intro t ht
    exact (bm25TermScore_bounds p hk1 hb0 hb1 (tokenize doc) dl avg idf t (hidf t ht)).2
  have hmax_eq : (qts.map (fun t => idf t * (p.k1 + 1))).sum =
      (qts.map idf).sum * (p.k1 + 1) := sum_map_mul_const idf (p.k1 + 1) qts
  split_ifs with hmax
  · constructor
    · exact le_min (div_nonneg hscore0 (le_of_lt hmax)) zero_le_one
    · exact min_le_right _ _
  · push_neg at hmax
    have hz : (qts.map (bm25TermScore p (tokenize doc) dl avg idf)).sum = 0 :=
      le_antisymm (le_trans hscore_le (hmax_eq ▸ hmax)) hscore0
    rw [hz]
    exact ⟨le_refl 0, zero_le_one⟩

/-- Helper: every output chunk of `rerank` comes from `rankChunks`. -/
theorem mem_rerank_rankChunks {α : Type} [LinearOrderedField α] (p : RerankParams α)
    (log : α → α) (query : String) (chunks : List (RAGChunk α)) (top_k : Option ℤ)
    (elapsed : α) {rc : RankedChunk α}
    (h : rc ∈ (rerank p log query chunks top_k elapsed).ranked_chunks) :
    rc ∈ rankChunks p log query chunks := by
  cases chunks with
  | nil => simp [rerank] at h
  | cons c cs =>
    have hout : (rerank p log query (c :: cs) top_k elapsed).ranked_chunks.Sublist
        (List.insertionSort rankedGE (rankChunks p log query (c :: cs))) := by
      unfold rerank
      cases top_k with
      | none => exact List.Sublist.refl _
      | some k =>
        by_cases hk : k = 0
        · simp only [hk, if_pos rfl]
          exact List.Sublist.refl _
        · simp only [if_neg hk]
          exact pySlice_sublist _ _
    exact (List.perm_insertionSort rankedGE _).mem_iff.1 (hout.subset h)

/-- C8 (amended): whenever every query term's IDF is nonnegative (which
holds exactly when no query term occurs in more than half of the
candidates, and always for absent terms, whose IDF is `0`), the normalized
lexical BM25 score of every output chunk lies in `[0, 1]`: the raw score is
divided by `Σₜ IDF(t)·(k1+1)` and clipped, and the length factor is `1`
when the average document length is `0`.  The counterexample shows the
score is negative — the normalization skipped — when a term occurs in more
than half of the candidates (negative IDF). -/
theorem bm25_score_unit_interval {α : Type} [LinearOrderedField α]
    (p : RerankParams α) (log : α → α) (query : String) (chunks : List (RAGChunk α))
    (top_k : Option ℤ) (elapsed : α)
    (hk1 : 0 < p.k1) (hb0 : 0 ≤ p.b) (hb1 : p.b ≤ 1)
    (hidf : ∀ t ∈ firstOccurrences (tokenize query), 0 ≤ idfOf log chunks t) :
    ∀ rc ∈ (rerank p log query chunks top_k elapsed).ranked_chunks,
      0 ≤ rc.rerank_score ∧ rc.rerank_score ≤ 1 := by
  intro rc hrc
  obtain ⟨-, dl, heq⟩ := mem_rankChunks p log query chunks
    (mem_rerank_rankChunks p log query chunks top_k elapsed hrc)
  rw [heq]
  exact bm25Score_unit p hk1 hb0 hb1 _ _ dl _ _ hidf

/-- Witness for `bm25_score_unit_interval`: query term absent from the only
candidate, so its IDF is `0` and the score is in `[0, 1]`. -/
theorem bm25_score_unit_interval_witness :
    (0 < (defaultRerankParams ℚ).k1) ∧ (0 ≤ (defaultRerankParams ℚ).b) ∧
      ((defaultRerankParams ℚ).b ≤ 1) ∧
      (∀ t ∈ firstOccurrences (tokenize "b"), 0 ≤ idfOf (fun _ => (0:ℚ)) [chunkQ] t) ∧
      (∀ rc ∈ (rerank (defaultRerankParams ℚ) (fun _ => 0) "b" [chunkQ]
          none 0).ranked_chunks, 0 ≤ rc.rerank_score ∧ rc.rerank_score ≤ 1) :=
  ⟨by norm_num [defaultRerankParams], by norm_num [defaultRerankParams],
    by norm_num [defaultRerankParams], by decide,
    bm25_score_unit_interval (defaultRerankParams ℚ) (fun _ => 0) "b" [chunkQ] none 0
      (by norm_num [defaultRerankParams]) (by norm_num [defaultRerankParams])
      (by norm_num [defaultRerankParams]) (by decide)⟩

/-- Helper: the IDF of the query term `"a"` against the single candidate
`chunkR` (whose content is `"a"`) is `log(1/3) < 0` — one term, one
document, `df = N = 1`. -/
theorem idf_chunkR : idfOf Real.log [chunkR] "a" = Real.log ((1:ℝ)/3) := by
  have hdf : docFreq ℝ [chunkR] "a" = 1 := by decide
  simp only [idfOf, hdf, List.length_cons, List.length_nil]
  norm_num

/-- Helper: the BM25 score of `chunkR` against query terms `["a"]` is
exactly that negative IDF: the term factor cancels and the normalization is
skipped because `Σ IDF · (k1+1) < 0`. -/
theorem bm25_chunkR :
    bm25Score (defaultRerankParams ℝ) ["a"] "a" 1 1 (idfOf Real.log [chunkR]) =
      Real.log ((1:ℝ)/3) := by
  have hL : Real.log ((1:ℝ)/3) < 0 := Real.log_neg (by norm_num) (by norm_num)
  have hcount : (tokenize "a").count "a" = 1 := by decide
  have hnorm : bm25Norm (defaultRerankParams ℝ) 1 1 = 1 := by
    norm_num [bm25Norm, defaultRerankParams]
  have hterm : bm25TermScore (defaultRerankParams ℝ) (tokenize "a") 1 1
      (idfOf Real.log [chunkR]) "a" = Real.log ((1:ℝ)/3) := by
    simp only [bm25TermScore, hcount, hnorm, idf_chunkR]
    norm_num [defaultRerankParams]
  simp only [bm25Score, List.map_cons, List.map_nil, List.sum_cons, List.sum_nil,
    add_zero, hterm, idf_chunkR]
  rw [if_neg]
  exact not_lt.2 (le_of_lt (mul_neg_of_neg_of_pos hL (by norm_num [defaultRerankParams])))

/-- Counterexample for C8 as claimed: for the query `"a"` over the single
candidate `chunkR` (content `"a"`), the query term occurs in every document,
its IDF `log(1/3)` is negative, `Σ IDF·(k1+1) < 0` disables the
normalization, and the reranker returns a lexical score of `log(1/3) < 0` —
outside `[0, 1]`. -/
theorem bm25_score_negative_on_common_term :
    ((rerank (defaultRerankParams ℝ) Real.log "a" [chunkR] none 0).ranked_chunks.map
        RankedChunk.rerank_score) = [Real.log ((1:ℝ)/3)] ∧
      Real.log ((1:ℝ)/3) < 0 := by
  refine ⟨?_, Real.log_neg (by norm_num) (by norm_num)⟩
  have htokq : firstOccurrences (tokenize "a") = ["a"] := by decide
  have hdl : [chunkR].map (fun c => (tokenize c.content).length) = [1] := by decide
  have havg : avgDocLength (α := ℝ) [chunkR] = 1 := by
    simp only [avgDocLength, hdl]
    norm_num
  have hc : chunkR.content = "a" := rfl
  have hlen : (tokenize "a").length = 1 := by decide
  simp only [rerank, rankChunks, htokq, hdl, havg, List.zip_cons_cons, List.zip_nil_right,
    List.map_cons, List.map_nil, List.insertionSort, List.orderedInsert, hc, hlen,
    bm25_chunkR]

/-- Helper: a successful registry lookup returns a registered model with the
requested id. -/
theorem getModelR_mem {cfg : RegistryConfig} {mid : String} {m : ModelSpec}
    (h : getModelR cfg mid = some m) : m ∈ cfg.models ∧ m.id = mid := by
  unfold getModelR at h
  refine ⟨List.mem_reverse.1 (List.mem_of_find?_eq_some h), ?_⟩
  have := List.find?_some h
  exact eq_of_beq this

/-- Helper: every id surviving `_resolve_fallback_chain` names a registered,
capability-valid model. -/
theorem resolveFallbackChain_sound {cfg : RegistryConfig} {ids : List String}
    {ctx : RoutingContext} {fid : String}
    (h : fid ∈ resolveFallbackChain cfg ids ctx) :
    ∃ m ∈ cfg.models, m.id = fid ∧ validateCapabilities m ctx = true := by
  unfold resolveFallbackChain at h
  rw [List.mem_filter] at h
  obtain ⟨-, hpred⟩ := h
  cases hm : getModelR cfg fid with
  | none => rw [hm] at hpred; simp at hpred
  | some m =>
    rw [hm] at hpred
    obtain ⟨hmem, hid⟩ := getModelR_mem hm
    refine ⟨m, hmem, hid, ?_⟩
    simpa using hpred

/-- Helper: every id produced by `_get_fallback_models` names a registered,
capability-valid model. -/
theorem getFallbackModels_sound {cfg : RegistryConfig} {primary : ModelSpec}
    {ctx : RoutingContext} {fid : String}
    (h : fid ∈ getFallbackModels cfg primary ctx) :
    ∃ m ∈ cfg.models, m.id = fid ∧ validateCapabilities m ctx = true := by
  unfold getFallbackModels at h
  obtain ⟨m, hm, rfl⟩ := List.mem_map.1 h
  have hm2 : m ∈ pySortByKey overrideSortKey
      (cfg.models.filter (fun m => m.id != primary.id && validateCapabilities m ctx)) :=
    (List.take_sublist _ _).subset hm
  have hm3 : m ∈ cfg.models.filter
      (fun m => m.id != primary.id && validateCapabilities m ctx) :=
    (List.perm_insertionSort _ _).mem_iff.1 hm2
  rw [List.mem_filter, Bool.and_eq_true] at hm3
  exact ⟨m, hm3.1, rfl, hm3.2.2⟩

/-- Helper: the default route, when it is not the `fallback_no_match`
escape, returns a validated primary and validated fallbacks. -/
theorem getDefaultRoute_sound {cfg : RegistryConfig} {ctx : RoutingContext}
    {d : RoutingDecision} (hd : getDefaultRoute cfg ctx = some d)
    (hname : d.route_name ≠ "fallback_no_match") :
    (∃ m ∈ cfg.models, m.id = d.primary_model_id ∧ validateCapabilities m ctx = true) ∧
    (∀ fid ∈ d.fallback_model_ids,
      ∃ m ∈ cfg.models, m.id = fid ∧ validateCapabilities m ctx = true) := by
  unfold getDefaultRoute at hd
  cases hcand : cfg.models.filter (fun m => validateCapabilities m ctx) with
  | nil =>
    rw [hcand] at hd
    cases hms : cfg.models with
    | nil => rw [hms] at hd; simp at hd
    | cons first rest =>
      rw [hms] at hd
      simp only [Option.some.injEq] at hd
      subst hd
      simp at hname
  | cons c0 cs0 =>
    rw [hcand] at hd
    dsimp only at hd
    have hsorted_mem : ∀ m ∈ pySortByKey defaultSortKey (c0 :: cs0),
        m ∈ cfg.models ∧ validateCapabilities m ctx = true := by
      intro m hm
      have hmf : m ∈ cfg.models.filter (fun m => validateCapabilities m ctx) := by
        rw [hcand]
        exact (List.perm_insertionSort _ _).mem_iff.1 hm
      rw [List.mem_filter] at hmf
      exact hmf
    cases hsort : pySortByKey defaultSortKey (c0 :: cs0) with
    | nil =>
      exfalso
      have hlen : (pySortByKey defaultSortKey (c0 :: cs0)).length = (c0 :: cs0).length :=
        List.Perm.length_eq (List.perm_insertionSort _ _)
      rw [hsort] at hlen
      simp at hlen
    | cons primary rest =>
      rw [hsort] at hd
      simp only [Option.some.injEq] at hd
      subst hd
      constructor
      · obtain ⟨hmem, hval⟩ := hsorted_mem primary (by rw [hsort]; exact List.mem_cons_self _ _)
        exact ⟨primary, hmem, rfl, hval⟩
      · intro fid hfid
        obtain ⟨m, hm, rfl⟩ := List.mem_map.1 hfid
        have hmem2 : m ∈ primary :: rest :=
          List.mem_cons_of_mem _ ((List.take_sublist _ _).subset hm)
        obtain ⟨hmem, hval⟩ := hsorted_mem m (by rw [hsort]; exact hmem2)
        exact ⟨m, hmem, rfl, hval⟩

/-- Helper: the rules-then-default path is capability-sound away from
`fallback_no_match`. -/
theorem routeViaRules_sound {rm : String → String → Bool} {cfg : RegistryConfig}
    {ctx : RoutingContext} {d : RoutingDecision}
    (hd : routeViaRules rm cfg ctx = some d)
    (hname : d.route_name ≠ "fallback_no_match") :
    (∃ m ∈ cfg.models, m.id = d.primary_model_id ∧ validateCapabilities m ctx = true) ∧
    (∀ fid ∈ d.fallback_model_ids,
      ∃ m ∈ cfg.models, m.id = fid ∧ validateCapabilities m ctx = true) := by
  unfold routeViaRules at hd
  cases hfind : findMatchingRoute rm cfg ctx with
  | none =>
    rw [hfind] at hd
    exact getDefaultRoute_sound hd hname
  | some r =>
    rw [hfind] at hd
    simp only [Option.some.injEq] at hd
    subst hd
    have hpred := List.find?_some hfind
    rw [Bool.and_eq_true] at hpred
    constructor
    · cases hm : getModelR cfg r.use_model with
      | none => rw [hm] at hpred; simp at hpred
      | some m =>
        have hval := hpred.2
        rw [hm] at hval
        obtain ⟨hmem, hid⟩ := getModelR_mem hm
        refine ⟨m, hmem, hid, ?_⟩
        simpa using hval
    · intro fid hfid
      exact resolveFallbackChain_sound hfid

/-- C9 (amended): every routing decision whose route name is not
`fallback_no_match` is capability-sound — its primary names a registered
model passing `_validate_capabilities` against the producing context, and so
does every entry of its fallback chain.  The `fallback_no_match` escape
(counterexample) returns the first registered model unvalidated. -/
theorem route_capability_soundness (rm : String → String → Bool)
    (cfg : RegistryConfig) (ctx : RoutingContext) (ov : Option String)
    (d : RoutingDecision) (hd : route rm cfg ctx ov = some d)
    (hname : d.route_name ≠ "fallback_no_match") :
    (∃ m ∈ cfg.models, m.id = d.primary_model_id ∧ validateCapabilities m ctx = true) ∧
    (∀ fid ∈ d.fallback_model_ids,
      ∃ m ∈ cfg.models, m.id = fid ∧ validateCapabilities m ctx = true) := by
  unfold route at hd
  cases ov with
  | none => exact routeViaRules_sound hd hname
  | some o =>
    dsimp only at hd
    by_cases ho : o = ""
    · rw [if_pos ho] at hd
      exact routeViaRules_sound hd hname
    · rw [if_neg ho] at hd
      cases hm : getModelR cfg o with
      | none =>
        rw [hm] at hd
        exact routeViaRules_sound hd hname
      | some model =>
        rw [hm] at hd
        dsimp only at hd
        by_cases hval : validateCapabilities model ctx
        · rw [if_pos hval] at hd
          simp only [Option.some.injEq] at hd
          subst hd
          obtain ⟨hmem, hid⟩ := getModelR_mem hm
          refine ⟨⟨model, hmem, hid, hval⟩, ?_⟩
          intro fid hfid
          exact getFallbackModels_sound hfid
        · rw [if_neg hval] at hd
          exact routeViaRules_sound hd hname

set_option maxRecDepth 10000 in
/-- Witness for `route_capability_soundness`: a registry with one fully
capable model routes to it via the default route, which is sound. -/
theorem route_capability_soundness_witness :
    (route rmNone cfgGood ctxPlain none =
      some { primary_model_id := "m-good", fallback_model_ids := []
             route_name := "default"
             route_reason := "Default routing: fast and cost-effective"
             timeout_ms := 30000 }) ∧
      ((∃ m ∈ cfgGood.models, m.id = "m-good" ∧ validateCapabilities m ctxPlain = true) ∧
        (∀ fid ∈ ([] : List String),
          ∃ m ∈ cfgGood.models, m.id = fid ∧ validateCapabilities m ctxPlain = true)) :=
  ⟨by decide,
    route_capability_soundness rmNone cfgGood ctxPlain none
      { primary_model_id := "m-good", fallback_model_ids := []
        route_name := "default"
        route_reason := "Default routing: fast and cost-effective"
        timeout_ms := 30000 }
      (by decide) (by decide)⟩

set_option maxRecDepth 10000 in
/-- Counterexample for C9 as claimed: with a registry whose only model lacks
tool support and a context requiring tools, `route` returns the
`fallback_no_match` decision whose primary is that very model — which fails
capability validation against the producing context. -/
theorem fallback_no_match_unvalidated :
    route rmNone cfgNoTools ctxTools none =
        some { primary_model_id := "m-basic", fallback_model_ids := []
               route_name := "fallback_no_match"
               route_reason := "No models meet all requirements"
               timeout_ms := 30000 } ∧
      validateCapabilities mspecNoTools ctxTools = false ∧
      cfgNoTools.models = [mspecNoTools] ∧ mspecNoTools.id = "m-basic" := by
  decide
